import Mathlib

/-!
Verification of the battle escrow core of the CryptoWarrior repository.

The escrow is the Move module `battle_arena::battle`: a shared `Battle`
object custodies two players' staked `Coin<OCT>` funds and offers four
operations, `create_battle`, `join_battle`, `finalize_battle` and
`cancel_battle`.  This file gives a shallow embedding of that module and
of the relevant part of the Move runtime (coin funding, transfers, and
ownership of the `AdminCap` capability object), and proves the spec's
claims about it.

Modelling decisions:
* addresses are `Nat`; a `Coin<OCT>` is represented by its `u64` value as
  a `Nat` (coin values are bounded by the OCT total supply, so `coin::join`
  never overflows and plain `Nat` addition is faithful);
* each Move `assert!` becomes an `if` returning `Except.error` with the
  module's abort code, in the exact order of the source asserts;
* a transaction that aborts leaves the world unchanged (Move aborts roll
  back the whole transaction); `commit` realises this;
* `finalize_battle` takes `&AdminCap` in the source but never reads it
  (`_admin_cap`): the runtime only lets the owner of the unique `AdminCap`
  object present it, which the transaction layer models by comparing the
  sender with `adminCapOwner`.
-/

namespace BattleArena

/-- Account addresses, `address` in Move. -/
abbrev Address := Nat

/-- Abort causes: the battle module's error constants `ENotAuthorized = 0`
through `EPlayer2AlreadyJoined = 6`, plus aborts raised by the surrounding
runtime and standard library rather than by the module itself. -/
inductive MoveAbort where
  | ENotAuthorized
  | EBattleAlreadyFull
  | EInvalidStakeAmount
  | EBattleNotReady
  | ECannotJoinOwnBattle
  | EInvalidWinner
  | EPlayer2AlreadyJoined
  | EOptionAbort
  | EInsufficientBalance
  | EObjectNotFound
  | ENoAdminCap
deriving Repr, DecidableEq

/-- The `Battle` struct: escrow state for one match.  `player1_stake` and
`player2_stake` are the custodied coins, represented by their values. -/
structure Battle where
  player1 : Address
  player2 : Address
  player1_stake : Nat
  player2_stake : Option Nat
  stake_amount : Nat
  is_ready : Bool
  admin : Address
deriving Repr, DecidableEq

/-- `create_battle(stake, opponent, admin, ctx)`: player 1 (`sender`)
creates the battle.  Asserts `sender != opponent` then
`coin::value(&stake) > 0`, and shares the new `Battle` object. -/
def create_battle (stake : Nat) (opponent admin sender : Address) :
    Except MoveAbort Battle :=
  if sender = opponent then .error .ECannotJoinOwnBattle
  else if 0 < stake then
    .ok { player1 := sender, player2 := opponent, player1_stake := stake,
          player2_stake := none, stake_amount := stake, is_ready := false,
          admin := admin }
  else .error .EInvalidStakeAmount

/-- `join_battle(battle, stake, ctx)`: player 2 joins.  Asserts, in order,
`sender == battle.player2`, `option::is_none(&battle.player2_stake)`, and
`coin::value(&stake) == battle.stake_amount`; then fills the player-2 slot
and sets `is_ready`. -/
def join_battle (battle : Battle) (stake : Nat) (sender : Address) :
    Except MoveAbort Battle :=
  if sender = battle.player2 then
    if battle.player2_stake.isSome then .error .EPlayer2AlreadyJoined
    else if stake = battle.stake_amount then
      .ok { battle with player2_stake := some stake, is_ready := true }
    else .error .EInvalidStakeAmount
  else .error .ENotAuthorized

/-- `finalize_battle(_admin_cap, battle, winner, _ctx)`: destructures the
battle, asserts `is_ready` then `winner == player1 || winner == player2`,
extracts player 2's stake (`option::destroy_some` aborts on `none`),
merges both stakes with `coin::join`, and transfers the total to the
winner.  The result records that transfer: `(winner, total_prize)`.  The
stored `admin` field is destructured away unread, and the `AdminCap`
parameter is never inspected. -/
def finalize_battle (battle : Battle) (winner : Address) :
    Except MoveAbort (Address × Nat) :=
  if battle.is_ready then
    if winner = battle.player1 ∨ winner = battle.player2 then
      match battle.player2_stake with
      | some player2_coins => .ok (winner, battle.player1_stake + player2_coins)
      | none => .error .EOptionAbort
    else .error .EInvalidWinner
  else .error .EBattleNotReady

/-- `cancel_battle(battle, ctx)`: asserts, in order, `!is_ready`
(code `EBattleAlreadyFull`), `sender == player1 || sender == admin`
(code `ENotAuthorized`), and `option::is_none(&player2_stake)` (code
`EBattleAlreadyFull` again); then refunds player 1's stake.  The result
records the refund transfer: `(player1, player1_stake)`. -/
def cancel_battle (battle : Battle) (sender : Address) :
    Except MoveAbort (Address × Nat) :=
  if battle.is_ready then .error .EBattleAlreadyFull
  else if sender = battle.player1 ∨ sender = battle.admin then
    if battle.player2_stake.isSome then .error .EBattleAlreadyFull
    else .ok (battle.player1, battle.player1_stake)
  else .error .ENotAuthorized

/-! ## The transaction layer

A `World` holds the shared `Battle` objects (keyed by creation index), the
fungible OCT balance of every address, and the owner of the unique
`AdminCap` object minted at module init.  Each `tx_*` function models one
Move transaction: the sender funds any staked coin from their own balance
(`coin::split`), object transfers credit the recipient's balance, and
presenting `&AdminCap` requires owning it. -/

/-- Global state: shared battles, fungible balances, and who owns the
`AdminCap` issued at module `init`. -/
structure World where
  battles : Nat → Option Battle
  nextId : Nat
  balances : Address → Nat
  adminCapOwner : Address

/-- Point update of the battle store. -/
def setBattle (bs : Nat → Option Battle) (i : Nat) (v : Option Battle) :
    Nat → Option Battle :=
  fun j => if j = i then v else bs j

/-- Credit `amt` to address `a`. -/
def credit (bal : Address → Nat) (a : Address) (amt : Nat) : Address → Nat :=
  fun x => if x = a then bal x + amt else bal x

/-- Debit `amt` from address `a` (the caller checks the balance first). -/
def debit (bal : Address → Nat) (a : Address) (amt : Nat) : Address → Nat :=
  fun x => if x = a then bal x - amt else bal x

/-- One transaction: the sender splits a coin of value `stake` off their
balance and calls `create_battle`; on success the new battle is shared
under the next fresh id. -/
def tx_create (w : World) (sender : Address) (stake : Nat)
    (opponent admin : Address) : Except MoveAbort World :=
  if stake ≤ w.balances sender then
    match create_battle stake opponent admin sender with
    | .ok b => .ok { w with
        battles := setBattle w.battles w.nextId (some b),
        nextId := w.nextId + 1,
        balances := debit w.balances sender stake }
    | .error e => .error e
  else .error .EInsufficientBalance

/-- One transaction: the sender splits a coin of value `stake` off their
balance and calls `join_battle` on the shared battle `bid`. -/
def tx_join (w : World) (sender : Address) (bid : Nat) (stake : Nat) :
    Except MoveAbort World :=
  match w.battles bid with
  | none => .error .EObjectNotFound
  | some b =>
    if stake ≤ w.balances sender then
      match join_battle b stake sender with
      | .ok b2 => .ok { w with
          battles := setBattle w.battles bid (some b2),
          balances := debit w.balances sender stake }
      | .error e => .error e
    else .error .EInsufficientBalance

/-- One transaction: the sender presents the `AdminCap` (so must own it)
and calls `finalize_battle`; on success the whole prize is transferred to
the winner and the battle object is deleted. -/
def tx_finalize (w : World) (sender : Address) (bid : Nat)
    (winner : Address) : Except MoveAbort World :=
  if sender = w.adminCapOwner then
    match w.battles bid with
    | none => .error .EObjectNotFound
    | some b =>
      match finalize_battle b winner with
      | .ok p => .ok { w with
          battles := setBattle w.battles bid none,
          balances := credit w.balances p.1 p.2 }
      | .error e => .error e
  else .error .ENoAdminCap

/-- One transaction: the sender calls `cancel_battle`; on success the
refund is transferred to player 1 and the battle object is deleted.  No
capability is involved. -/
def tx_cancel (w : World) (sender : Address) (bid : Nat) :
    Except MoveAbort World :=
  match w.battles bid with
  | none => .error .EObjectNotFound
  | some b =>
    match cancel_battle b sender with
    | .ok p => .ok { w with
        battles := setBattle w.battles bid none,
        balances := credit w.balances p.1 p.2 }
    | .error e => .error e

/-- Move abort semantics: an aborted transaction leaves the world exactly
as it was; a committed one installs the new world. -/
def commit (w : World) : Except MoveAbort World → World
  | .ok w' => w'
  | .error _ => w

/-- Worlds reachable from module init (no battles yet, arbitrary balances,
the `AdminCap` with its initial owner) by any sequence of successful
transactions. -/
inductive Reachable : World → Prop where
  | init (bal : Address → Nat) (capOwner : Address) :
      Reachable { battles := fun _ => none, nextId := 0, balances := bal,
                  adminCapOwner := capOwner }
  | create {w w' : World} {sender opponent admin : Address} {stake : Nat} :
      Reachable w → tx_create w sender stake opponent admin = .ok w' →
      Reachable w'
  | join {w w' : World} {sender : Address} {bid stake : Nat} :
      Reachable w → tx_join w sender bid stake = .ok w' → Reachable w'
  | finalize {w w' : World} {sender winner : Address} {bid : Nat} :
      Reachable w → tx_finalize w sender bid winner = .ok w' → Reachable w'
  | cancel {w w' : World} {sender : Address} {bid : Nat} :
      Reachable w → tx_cancel w sender bid = .ok w' → Reachable w'

/-! ## Inversion lemmas: what a successful call tells us -/

/-- Inversion for `create_battle`: success forces both preconditions and
determines the created battle completely. -/
theorem create_battle_ok {stake : Nat} {opponent admin sender : Address}
    {b : Battle} (h : create_battle stake opponent admin sender = .ok b) :
    sender ≠ opponent ∧ 0 < stake ∧
    b = { player1 := sender, player2 := opponent, player1_stake := stake,
          player2_stake := none, stake_amount := stake, is_ready := false,
          admin := admin } := by
  unfold create_battle at h
  split at h
  · simp at h
  · split at h
    · exact ⟨by assumption, by assumption, by injection h with h2; exact h2.symm⟩
    · simp at h

/-- Inversion for `join_battle`: success forces the three preconditions and
determines the updated battle. -/
theorem join_battle_ok {b : Battle} {stake : Nat} {sender : Address}
    {b2 : Battle} (h : join_battle b stake sender = .ok b2) :
    sender = b.player2 ∧ b.player2_stake = none ∧ stake = b.stake_amount ∧
    b2 = { b with player2_stake := some stake, is_ready := true } := by
  unfold join_battle at h
  split at h
  · split at h
    · simp at h
    · split at h
      · refine ⟨by assumption, ?_, by assumption, by injection h with h2; exact h2.symm⟩
        have : ¬ b.player2_stake.isSome = true := by assumption
        exact Option.not_isSome_iff_eq_none.mp this
      · simp at h
  · simp at h

/-- Inversion for `finalize_battle`: success forces readiness, a valid
winner and a filled player-2 slot, and the transfer is the merged total. -/
theorem finalize_battle_ok {b : Battle} {winner : Address} {p : Address × Nat}
    (h : finalize_battle b winner = .ok p) :
    b.is_ready = true ∧ (winner = b.player1 ∨ winner = b.player2) ∧
    ∃ s2, b.player2_stake = some s2 ∧ p = (winner, b.player1_stake + s2) := by
  unfold finalize_battle at h
  split at h
  · split at h
    · cases hs : b.player2_stake with
      | none => rw [hs] at h; simp at h
      | some s2 =>
        rw [hs] at h
        exact ⟨by assumption, by assumption, s2, rfl,
               by injection h with h2; exact h2.symm⟩
    · simp at h
  · simp at h

/-- Inversion for `cancel_battle`: success forces an un-ready battle with
an empty player-2 slot and an authorized sender, and the refund is
player 1's stake. -/
theorem cancel_battle_ok {b : Battle} {sender : Address} {p : Address × Nat}
    (h : cancel_battle b sender = .ok p) :
    b.is_ready = false ∧ (sender = b.player1 ∨ sender = b.admin) ∧
    b.player2_stake = none ∧ p = (b.player1, b.player1_stake) := by
  unfold cancel_battle at h
  split at h
  · simp at h
  · split at h
    · split at h
      · simp at h
      · refine ⟨by simp_all, by assumption, ?_, by injection h with h2; exact h2.symm⟩
        have : ¬ b.player2_stake.isSome = true := by assumption
        exact Option.not_isSome_iff_eq_none.mp this
    · simp at h

/-- Inversion for `tx_create`. -/
theorem tx_create_ok {w : World} {sender : Address} {stake : Nat}
    {opponent admin : Address} {w' : World}
    (h : tx_create w sender stake opponent admin = .ok w') :
    ∃ b, create_battle stake opponent admin sender = .ok b ∧
      stake ≤ w.balances sender ∧
      w' = { w with
        battles := setBattle w.battles w.nextId (some b),
        nextId := w.nextId + 1,
        balances := debit w.balances sender stake } := by
  unfold tx_create at h
  split at h
  · split at h
    · next b hb => exact ⟨b, hb, by assumption, by injection h with h2; exact h2.symm⟩
    · simp at h
  · simp at h

/-- Inversion for `tx_join`. -/
theorem tx_join_ok {w : World} {sender : Address} {bid stake : Nat}
    {w' : World} (h : tx_join w sender bid stake = .ok w') :
    ∃ b b2, w.battles bid = some b ∧ join_battle b stake sender = .ok b2 ∧
      stake ≤ w.balances sender ∧
      w' = { w with
        battles := setBattle w.battles bid (some b2),
        balances := debit w.balances sender stake } := by
  unfold tx_join at h
  split at h
  · simp at h
  · next b hb =>
    split at h
    · split at h
      · next b2 hb2 =>
        exact ⟨b, b2, hb, hb2, by assumption,
               by injection h with h2; exact h2.symm⟩
      · simp at h
    · simp at h

/-- Inversion for `tx_finalize`. -/
theorem tx_finalize_ok {w : World} {sender : Address} {bid : Nat}
    {winner : Address} {w' : World}
    (h : tx_finalize w sender bid winner = .ok w') :
    sender = w.adminCapOwner ∧
    ∃ b p, w.battles bid = some b ∧ finalize_battle b winner = .ok p ∧
      w' = { w with
        battles := setBattle w.battles bid none,
        balances := credit w.balances p.1 p.2 } := by
  unfold tx_finalize at h
  split at h
  · split at h
    · simp at h
    · next b hb =>
      split at h
      · next p hp =>
        exact ⟨by assumption, b, p, hb, hp,
               by injection h with h2; exact h2.symm⟩
      · simp at h
  · simp at h

/-- Inversion for `tx_cancel`. -/
theorem tx_cancel_ok {w : World} {sender : Address} {bid : Nat} {w' : World}
    (h : tx_cancel w sender bid = .ok w') :
    ∃ b p, w.battles bid = some b ∧ cancel_battle b sender = .ok p ∧
      w' = { w with
        battles := setBattle w.battles bid none,
        balances := credit w.balances p.1 p.2 } := by
  unfold tx_cancel at h
  split at h
  · simp at h
  · next b hb =>
    split at h
    · next p hp =>
      exact ⟨b, p, hb, hp, by injection h with h2; exact h2.symm⟩
    · simp at h

/-! ## The per-battle invariant -/

/-- Invariant of every shared `Battle` object: readiness coincides with the
player-2 slot being filled, a filled slot holds exactly `stake_amount`,
player 1's custodied coin is exactly `stake_amount`, and the stake is
positive. -/
def BattleInv (b : Battle) : Prop :=
  b.is_ready = b.player2_stake.isSome ∧
  (b.player2_stake = none ∨ b.player2_stake = some b.stake_amount) ∧
  b.player1_stake = b.stake_amount ∧
  0 < b.stake_amount

/-- Every battle in any reachable world satisfies `BattleInv`. -/
theorem reachable_battleInv {w : World} (hw : Reachable w) :
    ∀ i b, w.battles i = some b → BattleInv b := by
  induction hw with
  | init bal capOwner => intro i b hb; simp at hb
  | create hw htx ih =>
    obtain ⟨b0, hc, hbal, rfl⟩ := tx_create_ok htx
    obtain ⟨hne, hpos, rfl⟩ := create_battle_ok hc
    intro i b hb
    simp only [setBattle] at hb
    split at hb
    · injection hb with hb; subst hb
      exact ⟨rfl, Or.inl rfl, rfl, hpos⟩
    · exact ih i b hb
  | join hw htx ih =>
    obtain ⟨b0, b2, hb0, hj, hbal, rfl⟩ := tx_join_ok htx
    obtain ⟨hsender, hnone, hstake, rfl⟩ := join_battle_ok hj
    intro i b hb
    simp only [setBattle] at hb
    split at hb
    · injection hb with hb; subst hb
      obtain ⟨h1, h2, h3, h4⟩ := ih _ b0 hb0
      exact ⟨rfl, Or.inr (by rw [hstake]), h3, h4⟩
    · exact ih i b hb
  | finalize hw htx ih =>
    obtain ⟨hcap, b0, p, hb0, hf, rfl⟩ := tx_finalize_ok htx
    intro i b hb
    simp only [setBattle] at hb
    split at hb
    · simp at hb
    · exact ih i b hb
  | cancel hw htx ih =>
    obtain ⟨b0, p, hb0, hc, rfl⟩ := tx_cancel_ok htx
    intro i b hb
    simp only [setBattle] at hb
    split at hb
    · simp at hb
    · exact ih i b hb

/-! ## Forward lemmas: what the preconditions guarantee -/

/-- A `create_battle` call with distinct parties and a positive stake
succeeds and yields exactly the documented battle. -/
theorem create_battle_succeeds {stake : Nat} {opponent admin sender : Address}
    (hne : sender ≠ opponent) (hpos : 0 < stake) :
    create_battle stake opponent admin sender =
      .ok { player1 := sender, player2 := opponent, player1_stake := stake,
            player2_stake := none, stake_amount := stake, is_ready := false,
            admin := admin } := by
  unfold create_battle
  rw [if_neg hne, if_pos hpos]

/-- A `join_battle` call by the designated opponent on an unfilled battle
with the exact stake succeeds and fills the slot. -/
theorem join_battle_succeeds {b : Battle} {stake : Nat} {sender : Address}
    (hsender : sender = b.player2) (hnone : b.player2_stake = none)
    (hstake : stake = b.stake_amount) :
    join_battle b stake sender =
      .ok { b with player2_stake := some stake, is_ready := true } := by
  unfold join_battle
  rw [if_pos hsender, hnone]
  simp only [Option.isSome_none, Bool.false_eq_true, if_false]
  rw [if_pos hstake]

/-- A `finalize_battle` call on a ready battle with a valid winner succeeds
and transfers the merged total. -/
theorem finalize_battle_succeeds {b : Battle} {winner : Address} {s2 : Nat}
    (hready : b.is_ready = true) (hs2 : b.player2_stake = some s2)
    (hwin : winner = b.player1 ∨ winner = b.player2) :
    finalize_battle b winner = .ok (winner, b.player1_stake + s2) := by
  unfold finalize_battle
  rw [hready, if_pos rfl, if_pos hwin, hs2]

/-- A `cancel_battle` call on an unfilled battle by player 1 or the stored
admin succeeds and refunds player 1. -/
theorem cancel_battle_succeeds {b : Battle} {sender : Address}
    (hready : b.is_ready = false) (hauth : sender = b.player1 ∨ sender = b.admin)
    (hnone : b.player2_stake = none) :
    cancel_battle b sender = .ok (b.player1, b.player1_stake) := by
  unfold cancel_battle
  rw [hready]
  simp only [Bool.false_eq_true, if_false]
  rw [if_pos hauth, hnone]
  simp only [Option.isSome_none, Bool.false_eq_true, if_false]

/-- Transaction-level success of `tx_create`. -/
theorem tx_create_succeeds {w : World} {sender : Address} {stake : Nat}
    {opponent admin : Address}
    (hbal : stake ≤ w.balances sender) (hne : sender ≠ opponent)
    (hpos : 0 < stake) :
    tx_create w sender stake opponent admin = .ok { w with
      battles := setBattle w.battles w.nextId (some
        { player1 := sender, player2 := opponent, player1_stake := stake,
          player2_stake := none, stake_amount := stake, is_ready := false,
          admin := admin }),
      nextId := w.nextId + 1,
      balances := debit w.balances sender stake } := by
  unfold tx_create
  rw [if_pos hbal, create_battle_succeeds hne hpos]

/-- Transaction-level success of `tx_join`. -/
theorem tx_join_succeeds {w : World} {sender : Address} {bid stake : Nat}
    {b : Battle} (hb : w.battles bid = some b)
    (hbal : stake ≤ w.balances sender) (hsender : sender = b.player2)
    (hnone : b.player2_stake = none) (hstake : stake = b.stake_amount) :
    tx_join w sender bid stake = .ok { w with
      battles := setBattle w.battles bid (some
        { b with player2_stake := some stake, is_ready := true }),
      balances := debit w.balances sender stake } := by
  unfold tx_join
  rw [hb]
  simp only [if_pos hbal, join_battle_succeeds hsender hnone hstake]

/-- Transaction-level success of `tx_finalize`. -/
theorem tx_finalize_succeeds {w : World} {sender : Address} {bid : Nat}
    {winner : Address} {b : Battle} {s2 : Nat}
    (hcap : sender = w.adminCapOwner) (hb : w.battles bid = some b)
    (hready : b.is_ready = true) (hs2 : b.player2_stake = some s2)
    (hwin : winner = b.player1 ∨ winner = b.player2) :
    tx_finalize w sender bid winner = .ok { w with
      battles := setBattle w.battles bid none,
      balances := credit w.balances winner (b.player1_stake + s2) } := by
  unfold tx_finalize
  rw [if_pos hcap, hb]
  simp only [finalize_battle_succeeds hready hs2 hwin]

/-- Transaction-level success of `tx_cancel`. -/
theorem tx_cancel_succeeds {w : World} {sender : Address} {bid : Nat}
    {b : Battle} (hb : w.battles bid = some b)
    (hready : b.is_ready = false)
    (hauth : sender = b.player1 ∨ sender = b.admin)
    (hnone : b.player2_stake = none) :
    tx_cancel w sender bid = .ok { w with
      battles := setBattle w.battles bid none,
      balances := credit w.balances b.player1 b.player1_stake } := by
  unfold tx_cancel
  rw [hb]
  simp only [cancel_battle_succeeds hready hauth hnone]

/-! ## Rollback lemmas: an aborted transaction changes nothing -/

/-- Committing a result that cannot be `ok` keeps the world unchanged. -/
theorem commit_eq_of_no_ok {w : World} {r : Except MoveAbort World}
    (h : ∀ w', r ≠ .ok w') : commit w r = w := by
  cases r with
  | ok w' => exact absurd rfl (h w')
  | error e => rfl

/-- When the module-level join aborts, the whole join transaction rolls
back: the world is untouched. -/
theorem tx_join_rollback {w : World} {sender : Address} {bid stake : Nat}
    {b : Battle} {e : MoveAbort} (hb : w.battles bid = some b)
    (hj : join_battle b stake sender = .error e) :
    commit w (tx_join w sender bid stake) = w := by
  apply commit_eq_of_no_ok
  intro w' hok
  obtain ⟨b0, b2, hb0, hj0, _, _⟩ := tx_join_ok hok
  rw [hb] at hb0
  injection hb0 with hb0
  rw [← hb0, hj] at hj0
  cases hj0

/-- When the module-level finalize aborts, the whole settle transaction
rolls back: the world is untouched. -/
theorem tx_finalize_rollback {w : World} {sender winner : Address}
    {bid : Nat} {b : Battle} {e : MoveAbort} (hb : w.battles bid = some b)
    (hf : finalize_battle b winner = .error e) :
    commit w (tx_finalize w sender bid winner) = w := by
  apply commit_eq_of_no_ok
  intro w' hok
  obtain ⟨_, b0, p, hb0, hf0, _⟩ := tx_finalize_ok hok
  rw [hb] at hb0
  injection hb0 with hb0
  rw [← hb0, hf] at hf0
  cases hf0

/-- When the module-level cancel aborts, the whole cancel transaction
rolls back: the world is untouched. -/
theorem tx_cancel_rollback {w : World} {sender : Address} {bid : Nat}
    {b : Battle} {e : MoveAbort} (hb : w.battles bid = some b)
    (hc : cancel_battle b sender = .error e) :
    commit w (tx_cancel w sender bid) = w := by
  apply commit_eq_of_no_ok
  intro w' hok
  obtain ⟨b0, p, hb0, hc0, _⟩ := tx_cancel_ok hok
  rw [hb] at hb0
  injection hb0 with hb0
  rw [← hb0, hc] at hc0
  cases hc0

/-! ## Failure lemmas for `join_battle` -/

/-- A join by anyone other than the designated opponent aborts with
`ENotAuthorized`, whatever the battle state. -/
theorem join_battle_wrong_caller {b : Battle} {stake : Nat}
    {caller : Address} (h : caller ≠ b.player2) :
    join_battle b stake caller = .error .ENotAuthorized := by
  unfold join_battle
  rw [if_neg h]

/-- A join by the opponent with a wrong stake on an unfilled battle aborts
with `EInvalidStakeAmount` (the module's stake-mismatch code). -/
theorem join_battle_wrong_stake {b : Battle} {stake : Nat}
    (hnone : b.player2_stake = none) (hs : stake ≠ b.stake_amount) :
    join_battle b stake b.player2 = .error .EInvalidStakeAmount := by
  unfold join_battle
  rw [if_pos rfl, hnone]
  simp only [Option.isSome_none, Bool.false_eq_true, if_false]
  rw [if_neg hs]

/-- A join on a battle whose player-2 slot is already filled, made by the
designated opponent, aborts with `EPlayer2AlreadyJoined`. -/
theorem join_battle_already_filled {b : Battle} {stake : Nat} {s2 : Nat}
    (hsome : b.player2_stake = some s2) :
    join_battle b stake b.player2 = .error .EPlayer2AlreadyJoined := by
  unfold join_battle
  rw [if_pos rfl, hsome]
  simp only [Option.isSome_some, if_true]

/-! ## Concrete worlds used as witnesses -/

/-- Freshly initialized world: no battles, everyone holds 1000 OCT, and
the publisher (address 7) received the `AdminCap`. -/
def w0concrete : World :=
  { battles := fun _ => none, nextId := 0, balances := fun _ => 1000,
    adminCapOwner := 7 }

/-- Battle produced by `create_battle` with stake 500, player 1 = 1,
player 2 = 2, admin address 7. -/
def bOpen : Battle :=
  { player1 := 1, player2 := 2, player1_stake := 500, player2_stake := none,
    stake_amount := 500, is_ready := false, admin := 7 }

/-- World after address 1 opens the 500-stake battle against address 2. -/
def wOpen : World :=
  { battles := setBattle w0concrete.battles 0 (some bOpen), nextId := 1,
    balances := debit w0concrete.balances 1 500, adminCapOwner := 7 }

/-- The battle after address 2 joins with the matching 500 stake. -/
def bReady : Battle :=
  { bOpen with player2_stake := some 500, is_ready := true }

/-- World after address 2 joins battle 0. -/
def wReady : World :=
  { wOpen with
    battles := setBattle wOpen.battles 0 (some bReady),
    balances := debit wOpen.balances 2 500 }

/-! ## Claim theorems -/

/-- Claim C1: on a Ready match (both stakes deposited), a settle by the
`AdminCap` holder naming either player succeeds in one transaction,
transfers exactly `initiator_stake + opponent_stake` to the winner,
deletes the Match, and changes nothing else: no partially-transferred
post-state and no surviving Match is reachable from a successful settle. -/
theorem settle_ready_transfers_total {w : World} {bid : Nat} {b : Battle}
    {winner sender : Address} {s2 : Nat}
    (hb : w.battles bid = some b) (hready : b.is_ready = true)
    (hs2 : b.player2_stake = some s2)
    (hwin : winner = b.player1 ∨ winner = b.player2)
    (hsender : sender = w.adminCapOwner) :
    ∃ w', tx_finalize w sender bid winner = .ok w' ∧
      w'.battles bid = none ∧
      w'.balances winner = w.balances winner + (b.player1_stake + s2) ∧
      (∀ a, a ≠ winner → w'.balances a = w.balances a) ∧
      (∀ j, j ≠ bid → w'.battles j = w.battles j) ∧
      w'.adminCapOwner = w.adminCapOwner := by
  refine ⟨_, tx_finalize_succeeds hsender hb hready hs2 hwin, ?_, ?_, ?_, ?_, rfl⟩
  · simp [setBattle]
  · simp [credit]
  · intro a ha
    simp [credit, ha]
  · intro j hj
    simp [setBattle, hj]

/-- Witness for C1 at the concrete ready world: the `AdminCap` holder 7
settles battle 0 for winner 1. -/
theorem settle_ready_transfers_total_witness :
    ∃ w', tx_finalize wReady 7 0 1 = .ok w' ∧
      w'.battles 0 = none ∧
      w'.balances 1 = wReady.balances 1 + (bReady.player1_stake + 500) ∧
      (∀ a, a ≠ 1 → w'.balances a = wReady.balances a) ∧
      (∀ j, j ≠ 0 → w'.battles j = wReady.battles j) ∧
      w'.adminCapOwner = wReady.adminCapOwner := by
  exact settle_ready_transfers_total rfl rfl rfl (Or.inl rfl) rfl

/-- Claim C2: in every Match of every reachable world, `ready` is true
exactly when the opponent stake is present, and a present opponent stake
equals the initiator's custodied stake, which is the recorded (positive)
`stake_amount`. -/
theorem reachable_ready_iff_stake_invariant {w : World} (hw : Reachable w)
    {i : Nat} {b : Battle} (hb : w.battles i = some b) :
    (b.is_ready = true ↔ b.player2_stake.isSome = true) ∧
    (∀ v, b.player2_stake = some v → v = b.player1_stake) ∧
    b.player1_stake = b.stake_amount ∧ 0 < b.stake_amount := by
  obtain ⟨h1, h2, h3, h4⟩ := reachable_battleInv hw i b hb
  refine ⟨by rw [h1], ?_, h3, h4⟩
  intro v hv
  rcases h2 with h2 | h2
  · rw [h2] at hv
    cases hv
  · rw [h2] at hv
    injection hv with hv
    rw [← hv, h3]

/-- Witness for C2 at the concrete world reached by one `tx_create`. -/
theorem reachable_ready_iff_stake_invariant_witness :
    (bOpen.is_ready = true ↔ bOpen.player2_stake.isSome = true) ∧
    bOpen.player1_stake = bOpen.stake_amount ∧ 0 < bOpen.stake_amount := by
  have htx : tx_create w0concrete 1 500 2 7 = .ok wOpen := rfl
  have hr : Reachable wOpen :=
    Reachable.create (Reachable.init (fun _ => 1000) 7) htx
  have hb : wOpen.battles 0 = some bOpen := rfl
  have h := reachable_ready_iff_stake_invariant hr hb
  exact ⟨h.1, h.2.2.1, h.2.2.2⟩

/-- Claim C4: `open` succeeds exactly when the parties differ and the
stake is positive; success yields a Match with `ready = false`; with equal
parties it aborts with `ECannotJoinOwnBattle` (SelfMatchNotAllowed), and
with distinct parties and a zero stake it aborts with
`EInvalidStakeAmount`. -/
theorem open_succeeds_iff (stake : Nat) (opponent admin sender : Address) :
    (sender ≠ opponent ∧ 0 < stake →
      ∃ b, create_battle stake opponent admin sender = .ok b ∧
        b.is_ready = false) ∧
    (¬ (sender ≠ opponent ∧ 0 < stake) →
      ∀ b, create_battle stake opponent admin sender ≠ .ok b) ∧
    (sender = opponent →
      create_battle stake opponent admin sender =
        .error .ECannotJoinOwnBattle) ∧
    (sender ≠ opponent → stake = 0 →
      create_battle stake opponent admin sender =
        .error .EInvalidStakeAmount) := by
  refine ⟨?_, ?_, ?_, ?_⟩
  · rintro ⟨hne, hpos⟩
    exact ⟨_, create_battle_succeeds hne hpos, rfl⟩
  · intro hnot b hok
    obtain ⟨hne, hpos, _⟩ := create_battle_ok hok
    exact hnot ⟨hne, hpos⟩
  · intro heq
    unfold create_battle
    rw [if_pos heq]
  · intro hne h0
    unfold create_battle
    rw [if_neg hne, if_neg (by omega)]

/-- Witness for C4: `open` with distinct parties and stake 500 creates an
un-ready Match; `open` against oneself and `open` with stake 0 abort with
the respective codes. -/
theorem open_succeeds_iff_witness :
    (∃ b, create_battle 500 2 7 1 = .ok b ∧ b.is_ready = false) ∧
    create_battle 500 1 7 1 = .error .ECannotJoinOwnBattle ∧
    create_battle 0 2 7 1 = .error .EInvalidStakeAmount := by
  refine ⟨(open_succeeds_iff 500 2 7 1).1 (by decide), ?_, ?_⟩
  · exact (open_succeeds_iff 500 1 7 1).2.2.1 rfl
  · exact (open_succeeds_iff 0 2 7 1).2.2.2 (by decide) rfl

/-- Claim C5: on a Match opened as `open(A, B, 500)`, a join by anyone but
B aborts with `ENotAuthorized`, a join by B with a stake other than 500
aborts with `EInvalidStakeAmount` (the stake-mismatch code), a join by B
with 500 succeeds and sets `ready`; every failing join transaction rolls
the world back unchanged. -/
theorem join_auth_stake_cases {A B admin : Address} {b : Battle}
    (hopen : create_battle 500 B admin A = .ok b) :
    (∀ caller stake, caller ≠ B →
      join_battle b stake caller = .error .ENotAuthorized ∧
      (∀ w bid, w.battles bid = some b →
        commit w (tx_join w caller bid stake) = w)) ∧
    (∀ stake, stake ≠ 500 →
      join_battle b stake B = .error .EInvalidStakeAmount ∧
      (∀ w bid, w.battles bid = some b →
        commit w (tx_join w B bid stake) = w)) ∧
    (∃ b2, join_battle b 500 B = .ok b2 ∧ b2.is_ready = true) := by
  obtain ⟨hne, hpos, rfl⟩ := create_battle_ok hopen
  refine ⟨?_, ?_, ?_⟩
  · intro caller stake hcaller
    constructor
    · exact join_battle_wrong_caller hcaller
    · intro w bid hb
      exact tx_join_rollback hb (join_battle_wrong_caller hcaller)
  · intro stake hstake
    constructor
    · exact join_battle_wrong_stake rfl hstake
    · intro w bid hb
      exact tx_join_rollback hb (join_battle_wrong_stake rfl hstake)
  · exact ⟨_, join_battle_succeeds rfl rfl rfl, rfl⟩

/-- Witness for C5 on the concrete `open(1, 2, 500)` battle: caller 3 is
rejected as unauthorized, stake 400 is rejected as a mismatch, and the
designated opponent with stake 500 succeeds. -/
theorem join_auth_stake_cases_witness :
    join_battle bOpen 500 3 = .error .ENotAuthorized ∧
    join_battle bOpen 400 2 = .error .EInvalidStakeAmount ∧
    ∃ b2, join_battle bOpen 500 2 = .ok b2 ∧ b2.is_ready = true := by
  have h := join_auth_stake_cases (A := 1) (B := 2) (b := bOpen) rfl
  exact ⟨(h.1 3 500 (by decide)).1, (h.2.1 400 (by decide)).1, h.2.2⟩

/-- Does a transaction result commit (as opposed to abort)? -/
def txOk {α : Type} : Except MoveAbort α → Bool
  | .ok _ => true
  | .error _ => false

/-- Counterexample to claim C6: after the opponent's successful join, a
second join by player 1 (address 1, not the opponent) aborts with
`ENotAuthorized`, because the authorization assert runs before the
already-joined assert — not with `EPlayer2AlreadyJoined` as claimed. -/
theorem second_join_not_alreadyJoined_cex :
    join_battle bOpen 500 2 = .ok bReady ∧
    join_battle bReady 500 1 = .error .ENotAuthorized ∧
    MoveAbort.ENotAuthorized ≠ MoveAbort.EPlayer2AlreadyJoined := by
  exact ⟨rfl, rfl, by decide⟩

/-- Claim C6 (amended): once a join has succeeded, every further join
fails — with `EPlayer2AlreadyJoined` when the caller is the designated
opponent, with `ENotAuthorized` for any other caller — and never silently
succeeds. -/
theorem second_join_always_fails {b b2 : Battle} {stake : Nat}
    {caller : Address} (h : join_battle b stake caller = .ok b2) :
    ∀ caller2 stake2,
      (caller2 = b2.player2 →
        join_battle b2 stake2 caller2 = .error .EPlayer2AlreadyJoined) ∧
      (caller2 ≠ b2.player2 →
        join_battle b2 stake2 caller2 = .error .ENotAuthorized) ∧
      ∀ b3, join_battle b2 stake2 caller2 ≠ .ok b3 := by
  obtain ⟨hc, hnone, hs, rfl⟩ := join_battle_ok h
  intro caller2 stake2
  refine ⟨?_, ?_, ?_⟩
  · intro hc2
    subst hc2
    exact join_battle_already_filled rfl
  · intro hc2
    exact join_battle_wrong_caller hc2
  · intro b3 hok
    obtain ⟨_, hnone2, _, _⟩ := join_battle_ok hok
    exact absurd hnone2 (by simp)

/-- Witness for the amended C6 on the concrete joined battle: the
opponent's repeat join hits `EPlayer2AlreadyJoined`, an outsider's hits
`ENotAuthorized`. -/
theorem second_join_always_fails_witness :
    join_battle bReady 500 2 = .error .EPlayer2AlreadyJoined ∧
    join_battle bReady 500 3 = .error .ENotAuthorized := by
  have h0 : join_battle bOpen 500 2 = .ok bReady := rfl
  have h := second_join_always_fails h0
  exact ⟨(h 2 500).1 rfl, (h 3 500).2.1 (by decide)⟩

/-- Claim C7: cancel of an Open match (not ready, empty opponent slot) by
the initiator refunds exactly the initiator's stake and deletes the Match;
cancel of a Ready match aborts with `EBattleAlreadyFull` (the
already-joined code) whoever calls; cancel of an Open match by someone
who is neither initiator nor stored admin aborts with `ENotAuthorized`;
aborted cancels roll the world back unchanged. -/
theorem cancel_cases {w : World} {bid : Nat} {b : Battle}
    (hb : w.battles bid = some b) :
    (b.is_ready = false → b.player2_stake = none →
      ∃ w', tx_cancel w b.player1 bid = .ok w' ∧
        w'.battles bid = none ∧
        w'.balances b.player1 = w.balances b.player1 + b.player1_stake ∧
        (∀ a, a ≠ b.player1 → w'.balances a = w.balances a) ∧
        (∀ j, j ≠ bid → w'.battles j = w.battles j)) ∧
    (∀ caller, b.is_ready = true →
      cancel_battle b caller = .error .EBattleAlreadyFull ∧
      commit w (tx_cancel w caller bid) = w) ∧
    (∀ caller, b.is_ready = false → caller ≠ b.player1 → caller ≠ b.admin →
      cancel_battle b caller = .error .ENotAuthorized ∧
      commit w (tx_cancel w caller bid) = w) := by
  refine ⟨?_, ?_, ?_⟩
  · intro hready hnone
    refine ⟨_, tx_cancel_succeeds hb hready (Or.inl rfl) hnone, ?_, ?_, ?_, ?_⟩
    · simp [setBattle]
    · simp [credit]
    · intro a ha
      simp [credit, ha]
    · intro j hj
      simp [setBattle, hj]
  · intro caller hready
    have hc : cancel_battle b caller = .error .EBattleAlreadyFull := by
      unfold cancel_battle
      rw [hready]
      simp
    exact ⟨hc, tx_cancel_rollback hb hc⟩
  · intro caller hready h1 h2
    have hc : cancel_battle b caller = .error .ENotAuthorized := by
      unfold cancel_battle
      rw [hready]
      simp only [Bool.false_eq_true, if_false]
      rw [if_neg (by simp [h1, h2])]
    exact ⟨hc, tx_cancel_rollback hb hc⟩

/-- Witness for C7: initiator 1 cancels the open battle and is refunded
500; cancel of the ready battle aborts with the already-joined code; an
outsider's cancel of the open battle is unauthorized. -/
theorem cancel_cases_witness :
    (∃ w', tx_cancel wOpen 1 0 = .ok w' ∧
      w'.battles 0 = none ∧
      w'.balances 1 = wOpen.balances 1 + 500 ∧
      (∀ a, a ≠ 1 → w'.balances a = wOpen.balances a) ∧
      (∀ j, j ≠ 0 → w'.battles j = wOpen.battles j)) ∧
    cancel_battle bReady 1 = .error .EBattleAlreadyFull ∧
    cancel_battle bOpen 3 = .error .ENotAuthorized := by
  have h1 := cancel_cases (show wOpen.battles 0 = some bOpen from rfl)
  have h2 := cancel_cases (show wReady.battles 0 = some bReady from rfl)
  exact ⟨h1.1 rfl rfl, (h2.2.1 1 rfl).1,
         (h1.2.2 3 rfl (by decide) (by decide)).1⟩

/-- Claim C8: settle on a non-ready Match aborts with `EBattleNotReady`
for every winner argument, valid or not; settle on a Ready match naming a
winner who is neither player aborts with `EInvalidWinner`; in both cases
the aborted transaction transfers nothing — the world is unchanged. -/
theorem settle_notReady_invalidWinner (b : Battle) (winner : Address) :
    (b.is_ready = false →
      finalize_battle b winner = .error .EBattleNotReady ∧
      (∀ w sender bid, w.battles bid = some b →
        commit w (tx_finalize w sender bid winner) = w)) ∧
    (b.is_ready = true → winner ≠ b.player1 → winner ≠ b.player2 →
      finalize_battle b winner = .error .EInvalidWinner ∧
      (∀ w sender bid, w.battles bid = some b →
        commit w (tx_finalize w sender bid winner) = w)) := by
  constructor
  · intro hready
    have hf : finalize_battle b winner = .error .EBattleNotReady := by
      unfold finalize_battle
      rw [hready]
      simp
    exact ⟨hf, fun w sender bid hb => tx_finalize_rollback hb hf⟩
  · intro hready h1 h2
    have hf : finalize_battle b winner = .error .EInvalidWinner := by
      unfold finalize_battle
      rw [hready]
      simp only [if_true]
      rw [if_neg (by simp [h1, h2])]
    exact ⟨hf, fun w sender bid hb => tx_finalize_rollback hb hf⟩

/-- Witness for C8: settle of the open battle aborts not-ready even for
an invalid winner; settle of the ready battle for outsider 9 aborts with
`EInvalidWinner`. -/
theorem settle_notReady_invalidWinner_witness :
    finalize_battle bOpen 9 = .error .EBattleNotReady ∧
    finalize_battle bReady 9 = .error .EInvalidWinner := by
  refine ⟨((settle_notReady_invalidWinner bOpen 9).1 rfl).1, ?_⟩
  exact ((settle_notReady_invalidWinner bReady 9).2 rfl (by decide)
    (by decide)).1

/-! ## A reachable world whose battle stores an admin address that does
not own the `AdminCap` (the initiator may pass any admin address) -/

/-- Battle created with stored admin address 5 while the `AdminCap` owner
is address 7. -/
def bOpen5 : Battle :=
  { player1 := 1, player2 := 2, player1_stake := 500, player2_stake := none,
    stake_amount := 500, is_ready := false, admin := 5 }

/-- World after address 1 opens that battle. -/
def wOpen5 : World :=
  { battles := setBattle w0concrete.battles 0 (some bOpen5), nextId := 1,
    balances := debit w0concrete.balances 1 500, adminCapOwner := 7 }

/-- That battle once address 2 has joined. -/
def bReady5 : Battle :=
  { bOpen5 with player2_stake := some 500, is_ready := true }

/-- World after the join: ready battle storing admin 5, capability at 7. -/
def wReady5 : World :=
  { wOpen5 with
    battles := setBattle wOpen5.battles 0 (some bReady5),
    balances := debit wOpen5.balances 2 500 }

/-- Counterexample to claim C3: in a reachable world the Match stores
admin address 5 while the `AdminCap` sits with address 7; settle by 7 — a
caller different from the stored arbiter — succeeds, and the stored
arbiter 5 itself cannot settle (it lacks the capability object). -/
theorem settle_not_gated_on_stored_admin_cex :
    Reachable wReady5 ∧
    wReady5.battles 0 = some bReady5 ∧
    bReady5.admin = 5 ∧
    wReady5.adminCapOwner = 7 ∧
    (7 : Address) ≠ 5 ∧
    txOk (tx_finalize wReady5 7 0 1) = true ∧
    tx_finalize wReady5 5 0 1 = .error .ENoAdminCap := by
  refine ⟨?_, rfl, rfl, rfl, by decide, rfl, rfl⟩
  have h1 : tx_create w0concrete 1 500 2 5 = .ok wOpen5 := rfl
  have h2 : tx_join wOpen5 2 0 500 = .ok wReady5 := rfl
  exact Reachable.join (Reachable.create (Reachable.init (fun _ => 1000) 7) h1) h2

/-- Claim C3 (amended): settle is authorized by possession of the
`AdminCap` capability object, not by the Match's stored admin address: a
successful settle transaction implies the caller owns the `AdminCap`, and
`finalize_battle` is completely insensitive to the stored admin field. -/
theorem settle_requires_adminCap {w : World} {sender : Address} {bid : Nat}
    {winner : Address} {w' : World}
    (h : tx_finalize w sender bid winner = .ok w') :
    sender = w.adminCapOwner ∧
    ∀ b x, finalize_battle { b with admin := x } winner =
      finalize_battle b winner := by
  refine ⟨(tx_finalize_ok h).1, ?_⟩
  intro b x
  cases b
  rfl

/-- Witness for the amended C3 at the concrete settle by the `AdminCap`
owner 7. -/
theorem settle_requires_adminCap_witness :
    (7 : Address) = wReady.adminCapOwner ∧
    finalize_battle { bReady with admin := 9 } 1 = finalize_battle bReady 1 := by
  have hD : tx_finalize wReady 7 0 1 = .ok { wReady with
    battles := setBattle wReady.battles 0 none,
    balances := credit wReady.balances 1 1000 } := rfl
  have h := settle_requires_adminCap hD
  exact ⟨h.1, h.2 bReady 9⟩

/-- End-to-end sequence from the spec's scenario: `open(A, B, stake)` by
A, `join(B, stake)` on the battle just created, then settle by the
`AdminCap` owner naming `winner`. -/
def matchScenario (w : World) (A B admin : Address) (stake : Nat)
    (winner : Address) : Except MoveAbort World :=
  match tx_create w A stake B admin with
  | .error e => .error e
  | .ok w1 =>
    match tx_join w1 B w.nextId stake with
    | .error e => .error e
    | .ok w2 => tx_finalize w2 w2.adminCapOwner w.nextId winner

/-- Counterexample to claim C9: from balances of 1000 everywhere, the
sequence `open(1, 2, 500)` → `join(2, 500)` → settle for winner 1 leaves
address 1 with 1500 = 1000 + 500, not 1000 + 1000: address 1 funded its
500 stake from its own balance and then received the 1000 pot, so its
balance rises by 500 relative to the pre-match balance, not by 1000. -/
theorem endToEnd_winner_delta_cex :
    (matchScenario w0concrete 1 2 7 500 1).map (fun w => w.balances 1) =
      .ok 1500 ∧
    w0concrete.balances 1 = 1000 ∧
    (1500 : Nat) ≠ 1000 + 1000 := by
  exact ⟨rfl, rfl, by decide⟩

/-- Claim C9 (amended): in the end-to-end scenario `open(A, B, 500)` →
`join(B, 500)` → settle for winner A, with both players funding their
stakes from their own balances, A's balance ends exactly 500 above its
pre-match value (A staked 500 and received the 1000 pot) and B's exactly
500 below; nobody else's balance moves and the Match is destroyed. -/
theorem endToEnd_balances (bal : Address → Nat) (cap A B adm : Address)
    (hAB : A ≠ B) (hA : 500 ≤ bal A) (hB : 500 ≤ bal B) :
    ∃ w', matchScenario
        { battles := fun _ => none, nextId := 0, balances := bal,
          adminCapOwner := cap } A B adm 500 A = .ok w' ∧
      w'.balances A = bal A + 500 ∧
      w'.balances B + 500 = bal B ∧
      (∀ c, c ≠ A → c ≠ B → w'.balances c = bal c) ∧
      w'.battles 0 = none := by
  have h1 : tx_create
      { battles := fun _ => none, nextId := 0, balances := bal,
        adminCapOwner := cap } A 500 B adm =
      .ok { battles := setBattle (fun _ => none) 0 (some
              { player1 := A, player2 := B, player1_stake := 500,
                player2_stake := none, stake_amount := 500,
                is_ready := false, admin := adm }),
            nextId := 1, balances := debit bal A 500,
            adminCapOwner := cap } :=
    @tx_create_succeeds _ A 500 B adm hA hAB (by omega)
  have h2 : tx_join
      { battles := setBattle (fun _ => none) 0 (some
          { player1 := A, player2 := B, player1_stake := 500,
            player2_stake := none, stake_amount := 500,
            is_ready := false, admin := adm }),
        nextId := 1, balances := debit bal A 500,
        adminCapOwner := cap } B 0 500 =
      .ok { battles := setBattle (setBattle (fun _ => none) 0 (some
              { player1 := A, player2 := B, player1_stake := 500,
                player2_stake := none, stake_amount := 500,
                is_ready := false, admin := adm })) 0 (some
              { player1 := A, player2 := B, player1_stake := 500,
                player2_stake := some 500, stake_amount := 500,
                is_ready := true, admin := adm }),
            nextId := 1, balances := debit (debit bal A 500) B 500,
            adminCapOwner := cap } := by
    refine @tx_join_succeeds _ B 0 500
      { player1 := A, player2 := B, player1_stake := 500,
        player2_stake := none, stake_amount := 500,
        is_ready := false, admin := adm } rfl ?_ rfl rfl rfl
    show 500 ≤ debit bal A 500 B
    unfold debit
    rw [if_neg (Ne.symm hAB)]
    exact hB
  have h3 : tx_finalize
      { battles := setBattle (setBattle (fun _ => none) 0 (some
          { player1 := A, player2 := B, player1_stake := 500,
            player2_stake := none, stake_amount := 500,
            is_ready := false, admin := adm })) 0 (some
          { player1 := A, player2 := B, player1_stake := 500,
            player2_stake := some 500, stake_amount := 500,
            is_ready := true, admin := adm }),
        nextId := 1, balances := debit (debit bal A 500) B 500,
        adminCapOwner := cap } cap 0 A =
      .ok { battles := setBattle (setBattle (setBattle (fun _ => none) 0 (some
              { player1 := A, player2 := B, player1_stake := 500,
                player2_stake := none, stake_amount := 500,
                is_ready := false, admin := adm })) 0 (some
              { player1 := A, player2 := B, player1_stake := 500,
                player2_stake := some 500, stake_amount := 500,
                is_ready := true, admin := adm })) 0 none,
            nextId := 1,
            balances := credit (debit (debit bal A 500) B 500) A (500 + 500),
            adminCapOwner := cap } :=
    @tx_finalize_succeeds _ cap 0 A
      { player1 := A, player2 := B, player1_stake := 500,
        player2_stake := some 500, stake_amount := 500,
        is_ready := true, admin := adm } 500 rfl rfl rfl rfl (Or.inl rfl)
  refine ⟨{ battles := setBattle (setBattle (setBattle (fun _ => none) 0 (some
                 { player1 := A, player2 := B, player1_stake := 500,
                   player2_stake := none, stake_amount := 500,
                   is_ready := false, admin := adm })) 0 (some
                 { player1 := A, player2 := B, player1_stake := 500,
                   player2_stake := some 500, stake_amount := 500,
                   is_ready := true, admin := adm })) 0 none,
            nextId := 1,
            balances := credit (debit (debit bal A 500) B 500) A (500 + 500),
            adminCapOwner := cap }, ?_, ?_, ?_, ?_, ?_⟩
  · unfold matchScenario
    rw [h1]
    simp only [h2, h3]
  · show credit (debit (debit bal A 500) B 500) A (500 + 500) A = bal A + 500
    simp [credit, debit, hAB]
    omega
  · show credit (debit (debit bal A 500) B 500) A (500 + 500) B + 500 = bal B
    simp [credit, debit, hAB, Ne.symm hAB]
    omega
  · intro c hc1 hc2
    show credit (debit (debit bal A 500) B 500) A (500 + 500) c = bal c
    simp [credit, debit, hc1, hc2]
  · show setBattle (setBattle (setBattle (fun _ => none) 0 (some
      { player1 := A, player2 := B, player1_stake := 500,
        player2_stake := none, stake_amount := 500,
        is_ready := false, admin := adm })) 0 (some
      { player1 := A, player2 := B, player1_stake := 500,
        player2_stake := some 500, stake_amount := 500,
        is_ready := true, admin := adm })) 0 none 0 = none
    simp [setBattle]

/-- Witness for the amended C9 at concrete addresses 1, 2, admin 7 and
uniform initial balances of 1000. -/
theorem endToEnd_balances_witness :
    ∃ w', matchScenario
        { battles := fun _ => none, nextId := 0, balances := fun _ => 1000,
          adminCapOwner := 7 } 1 2 7 500 1 = .ok w' ∧
      w'.balances 1 = 1500 ∧
      w'.balances 2 + 500 = 1000 ∧
      (∀ c, c ≠ 1 → c ≠ 2 → w'.balances c = 1000) ∧
      w'.battles 0 = none := by
  exact endToEnd_balances (fun _ => 1000) 7 1 2 7 (by decide) (by decide)
    (by decide)

/-- Claim C10: the admin address stored at `open` is chosen freely by the
initiator and never validated — any address, the opponent and the
initiator included, is accepted and stored verbatim.  Its only later
effect is that `cancel_battle` accepts it as an authorized caller by
plain address equality, with no capability object consulted;
`finalize_battle` never reads it. -/
theorem admin_address_unvalidated (stake : Nat)
    (opponent admin sender : Address)
    (hne : sender ≠ opponent) (hpos : 0 < stake) :
    (∃ b, create_battle stake opponent admin sender = .ok b ∧
      b.admin = admin) ∧
    (∀ b winner x, finalize_battle { b with admin := x } winner =
      finalize_battle b winner) ∧
    (∀ b, b.is_ready = false → b.player2_stake = none →
      cancel_battle b b.admin = .ok (b.player1, b.player1_stake)) ∧
    (∀ w x sender2 bid,
      txOk (tx_cancel { w with adminCapOwner := x } sender2 bid) =
      txOk (tx_cancel w sender2 bid)) := by
  refine ⟨⟨_, create_battle_succeeds hne hpos, rfl⟩, ?_, ?_, ?_⟩
  · intro b winner x
    cases b
    rfl
  · intro b hready hnone
    exact cancel_battle_succeeds hready (Or.inr rfl) hnone
  · intro w x sender2 bid
    cases hw : w.battles bid with
    | none => simp [tx_cancel, hw]
    | some b =>
      cases hc : cancel_battle b sender2 with
      | ok p => simp [tx_cancel, txOk, hw, hc]
      | error e => simp [tx_cancel, txOk, hw, hc]

/-- Witness for C10: admin address 9 (owned by nobody relevant) is stored
verbatim, settle ignores the stored field, and the stored admin 7 may
cancel the open battle with no capability check. -/
theorem admin_address_unvalidated_witness :
    (∃ b, create_battle 500 2 9 1 = .ok b ∧ b.admin = 9) ∧
    finalize_battle { bReady with admin := 9 } 2 = finalize_battle bReady 2 ∧
    cancel_battle bOpen 7 = .ok (1, 500) := by
  have h9 := admin_address_unvalidated 500 2 9 1 (by decide) (by decide)
  have h7 := admin_address_unvalidated 500 2 7 1 (by decide) (by decide)
  exact ⟨h9.1, h9.2.1 bReady 2 9, h7.2.2.1 bOpen rfl rfl⟩

end BattleArena
